import Mathlib

/-!
Verification of the genesm finite-state-machine runtime (Go).

This file shallowly embeds the parts of the repository that the claims
concern: the state machine core (`StateMachine.transform`, `regState`,
`RegState`), the event layer (`eventBind.Trigger`, `eventGroup.Trigger`),
the state binding (`stateBindImp.Set`), the frame ticker
(`obsFrameTicker.Reset`, the tick loop, `TickCount`) and the frame
observer agent (`frameObAgent` lifecycle and `resetEv`).

Go machine integers: `StateID.RegSerial` is a Go `int` (embedded as `Int`,
negative values mean invalid), `SMSerial` is a `uint32` (embedded as `Nat`;
serial arithmetic and wraparound are not exercised by any claim).
Timestamps (`time.Time`) are embedded as `Nat` instants; Go's monotonic
clock reading appears as a non-decreasing hypothesis where needed.
Frame rates (`float32`) are embedded as `Rat`; the only rate comparisons a
claim depends on (`0 < 0.01`, in-range values) are exact in either model.
-/

namespace Genesm

/-- Error taxonomy of the package (the `errors.New` values plus user hook
errors, which `userErr` tags with an arbitrary code). -/
inductive GErr where
  | AlreadyChanged
  | InvalidChange
  | NothingTodo
  | UnexpectedState
  | NoState
  | EmptyGroup
  | GroupFailure
  | InvalidFrameRate
  | NoBound
  | BeenBound
  | userErr (code : Nat)
deriving DecidableEq, Repr

/-- `StateID` from part_004: the machine serial (`uint32`) and the
registration index (`int`). -/
structure StateID where
  SMSerial : Nat
  RegSerial : Int
deriving DecidableEq, Repr

/-- `STIDInvalid()` from part_004. -/
def STIDInvalid : StateID := { SMSerial := 0, RegSerial := -1 }

/-- `StateID.IsInvalid` from part_004: `s.RegSerial < 0 || s.SMSerial == 0`. -/
def StateID.IsInvalid (s : StateID) : Bool :=
  s.RegSerial < 0 || s.SMSerial == 0

/-- One `stateBindImp` record (part_003): assigned id, contained value,
last-update timestamp, selection flag and the observer list (observers are
identified by number; their callbacks are recorded in traces). -/
structure Binding (V : Type) where
  id : StateID
  sub : V
  subUpdTime : Nat
  selected : Bool
  obs : List Nat
deriving DecidableEq, Repr

/-- `StateMachine` from part_004: owner, machine serial, state table and
the currently selected state id. -/
structure SM (O V : Type) where
  owner : O
  smSerial : Nat
  stateTab : List (Binding V)
  stateOn : StateID
deriving DecidableEq, Repr

/-- `NewStateMachine` from part_004 (the freshly drawn global serial `seq`
is a parameter): empty table, `stateOn = {SMSerial: seq}` (zero index). -/
def NewStateMachine (seq : Nat) (owner : O) : SM O V :=
  { owner := owner, smSerial := seq, stateTab := [], stateOn := { SMSerial := seq, RegSerial := 0 } }

/-- Write the `selected` field of table entry `i` (the effect of
`stateBindImp.onEnter` / `onExit` on the flag, part_003 lines 539-556);
out-of-range indices leave the table unchanged (never reached: the caller
indexes the Go slice first). -/
def updSel : List (Binding V) → Nat → Bool → List (Binding V)
  | [], _, _ => []
  | b :: t, 0, v => { b with selected := v } :: t
  | b :: t, n + 1, v => b :: updSel t n v

/-- Binding-level callback trace entries recorded by `transform`:
`onExit` / `onEnter` invocations with the index of the binding they hit. -/
inductive Cb where
  | exitCb (i : Nat)
  | enterCb (i : Nat)
deriving DecidableEq, Repr

/-- Result of `transform`: either a normal return (Go error, updated
machine, callback trace in invocation order) or a Go panic (index out of
range on the exit lookup; unreachable from the public API). -/
inductive TRes (O V : Type) where
  | panicked
  | ok (err : Option GErr) (sm : SM O V) (tr : List Cb)
deriving DecidableEq, Repr

/-- `StateMachine.transform` from part_004 lines 126-141. -/
def transform (sm : SM O V) (trs : StateID → StateID) : TRes O V :=
  let next := trs sm.stateOn
  if next = sm.stateOn then
    .ok (some .NothingTodo) sm []
  else if next.IsInvalid then
    .ok none sm []
  else if (sm.stateTab.length : Int) ≤ next.RegSerial then
    .ok (some .InvalidChange) sm []
  else if _h : 0 ≤ sm.stateOn.RegSerial ∧ sm.stateOn.RegSerial < (sm.stateTab.length : Int) then
    let oldIdx := sm.stateOn.RegSerial.toNat
    let newIdx := next.RegSerial.toNat
    .ok none
      { sm with
        stateOn := next,
        stateTab := updSel (updSel sm.stateTab oldIdx false) newIdx true }
      [.exitCb oldIdx, .enterCb newIdx]
  else
    .panicked

/-- `RegState` from part_003 lines 522-536 composed with
`StateMachine.regState` from part_004 lines 111-119: a binding is built
with the contained value and the current time, receives the id
`{sm.smSerial, len(stateTab)}`, is marked selected for the first
registration (the source guard `id == 0`, commented "add for first state
into state machine", i.e. registration index zero), and is appended. -/
def RegState (sm : SM O V) (now : Nat) (v : V) : SM O V :=
  let id : StateID := { SMSerial := sm.smSerial, RegSerial := (sm.stateTab.length : Int) }
  let b : Binding V :=
    { id := id, sub := v, subUpdTime := now, selected := decide (id.RegSerial = 0), obs := [] }
  { sm with stateTab := sm.stateTab ++ [b] }

/-- `StateBinder.Get` from part_003: the contained value. -/
def Binding.Get (sb : Binding V) : V := sb.sub

/-- `StateBinder.GetUpdTime` from part_003. -/
def Binding.GetUpdTime (sb : Binding V) : Nat := sb.subUpdTime

/-- One `ob.update(owner, id, val)` invocation recorded by `Set`
(part_003 lines 595-597): observer number, owner, state id, value. -/
structure UpdCb (O V : Type) where
  ob : Nat
  owner : O
  id : StateID
  val : V
deriving DecidableEq, Repr

/-- `stateBindImp.Set` from part_003 lines 590-599: store the value, stamp
the current time, then fan `update(parent.owner, id, sub)` out to every
observer in order (`sb.sub` is read after the store, so observers receive
the new value). The Go `error` return is always nil. -/
def bindSet (sb : Binding V) (owner : O) (now : Nat) (val : V) :
    Binding V × List (UpdCb O V) :=
  let sb2 := { sb with sub := val, subUpdTime := now }
  (sb2, sb2.obs.map (fun ob => { ob := ob, owner := owner, id := sb2.id, val := sb2.sub }))

/-- Write the `sub` / `subUpdTime` fields of table entry `i` (machine-level
view of `Set`, selection flag untouched). -/
def updSub : List (Binding V) → Nat → Nat → V → List (Binding V)
  | [], _, _, _ => []
  | b :: t, 0, now, v => { b with sub := v, subUpdTime := now } :: t
  | b :: t, n + 1, now, v => b :: updSub t n now v

/-- Append an observer to the list of table entry `i` (machine-level view
of `AddObserver`, part_003 lines 602-619; the startOb call and nil check
do not touch the selection flag either way). -/
def addObs : List (Binding V) → Nat → Nat → List (Binding V)
  | [], _, _ => []
  | b :: t, 0, ob => { b with obs := b.obs ++ [ob] } :: t
  | b :: t, n + 1, ob => b :: addObs t n ob

/-- `eventBind` from part_002: an event stores its source and destination
binders; a binder handle is its registration index in the parent machine's
table (its `ID()` is therefore `{sm.smSerial, idx}`, the id assigned at
registration — `RegEvent` panics unless both binders belong to `sm`).
The optional hook is `func(O, A, B) error`. -/
structure EventBind (O V : Type) where
  aIdx : Nat
  bIdx : Nat
  hook : Option (O → V → V → Option GErr)

/-- `a.ID()` for an event's source binder. -/
def EventBind.aID (ev : EventBind O V) (sm : SM O V) : StateID :=
  { SMSerial := sm.smSerial, RegSerial := (ev.aIdx : Int) }

/-- `b.ID()` for an event's destination binder. -/
def EventBind.bID (ev : EventBind O V) (sm : SM O V) : StateID :=
  { SMSerial := sm.smSerial, RegSerial := (ev.bIdx : Int) }

/-- `StateBinder.Get()` through the machine: the value of table entry `i`
(the binder object always exists in Go; a default stands in for the
unreachable out-of-range read). -/
def SM.getSub [Inhabited V] (sm : SM O V) (i : Nat) : V :=
  ((sm.stateTab[i]?).map Binding.sub).getD default

/-- The transition closure of `eventBind.Trigger` (part_002 lines 129-145)
evaluated at `curID`: first component is the captured `rerr`, second the
returned next state id. -/
def evFn [Inhabited V] (ev : EventBind O V) (sm : SM O V) (curID : StateID) :
    Option GErr × StateID :=
  if curID ≠ ev.aID sm then
    (if curID = ev.bID sm then (some .AlreadyChanged, STIDInvalid)
     else (some .UnexpectedState, STIDInvalid))
  else
    match ev.hook with
    | none => (none, ev.bID sm)
    | some h =>
      match h sm.owner (sm.getSub ev.aIdx) (sm.getSub ev.bIdx) with
      | none => (none, ev.bID sm)
      | some e => (some e, STIDInvalid)

/-- `eventBind.Trigger` from part_002 lines 128-147: run `transform` with
the closure, discard `transform`'s return value, and return the captured
`rerr` (plus the resulting machine and binding-level callback trace);
`none` is a propagated panic. -/
def evTrigger [Inhabited V] (ev : EventBind O V) (sm : SM O V) :
    Option (Option GErr × SM O V × List Cb) :=
  match transform sm (fun cur => (evFn ev sm cur).2) with
  | .panicked => none
  | .ok _ sm2 tr => some ((evFn ev sm sm.stateOn).1, sm2, tr)

/-- A group member, abstracted by its `Trigger` behaviour on a world state
`S`: the returned Go error and the successor state (each `eventBind`
instance is such a function of the machine it mutates). -/
def EvMember (S : Type) : Type := S → Option GErr × S

/-- The range loop of `eventGroup.Trigger` (part_002 lines 154-158): try
each member in order, return nil at the first success, `GroupFailure`
after the loop. -/
def egLoop : List (EvMember S) → S → Option GErr × S
  | [], s => (some .GroupFailure, s)
  | ev :: rest, s =>
    let r := ev s
    match r.1 with
    | none => (none, r.2)
    | some _ => egLoop rest r.2

/-- `eventGroup.Trigger` from part_002 lines 150-160. -/
def eventGroupTrigger (eg : List (EvMember S)) (s : S) : Option GErr × S :=
  if eg.length = 0 then (some .EmptyGroup, s)
  else egLoop eg s

/-- Modelled from the spec (section 4.3): "returns `EmptyGroup` when
empty; otherwise tries each in order and returns `nil` on the first
success. If all fail, returns `GroupFailure`." Used only to compare with
`eventGroupTrigger`. -/
def groupTriggerSpec (eg : List (EvMember S)) (s : S) : Option GErr × S :=
  match eg with
  | [] => (some .EmptyGroup, s)
  | _ :: _ => trySeq eg s
where
  trySeq : List (EvMember S) → S → Option GErr × S
    | [], s => (some .GroupFailure, s)
    | ev :: rest, s =>
      match ev s with
      | (none, s2) => (none, s2)
      | (some _, s2) => trySeq rest s2

/-- `obsFrameTicker` from part_006: started flag (`tk.ticker != nil`, set
by the first `switchTo` and never cleared — `Stop` only halts the pulse),
period `d` (nanoseconds), the keys of the per-FSM tickable map, and the
five counters. -/
structure FrameTicker where
  started : Bool
  d : Int
  obsKeys : List Nat
  processing : Int
  skipped : Int
  totalskipped : Int
  totalframe : Int
  tickcount : Int
deriving DecidableEq, Repr

/-- The period computation `time.Duration(1.0/framerate*1000.0) *
time.Millisecond` (part_006 lines 310 and 427): the float milliseconds
value is truncated to an integer duration and scaled to nanoseconds
(rates are positive wherever this is evaluated, so floor is truncation). -/
def durOf (r : Rat) : Int := ⌊1000 / r⌋ * 1000000

/-- `CreateObsFrameTicker` from part_006 lines 304-312 (`none` stands for
the `ErrObInvalidFrameRate` return). -/
def CreateObsFrameTicker (r : Rat) : Option FrameTicker :=
  if r < 1/100 ∨ r > 200 then none
  else some
    { started := false, d := durOf r, obsKeys := [], processing := 0,
      skipped := 0, totalskipped := 0, totalframe := 0, tickcount := 0 }

/-- `obsFrameTicker.Reset` from part_006 lines 417-431: range-check the
rate first, then fail with `NoBound` when the ticker was never started,
then rebind the period (the `framerate != 0` guard is unreachable for
zero, which the range check already rejected) and reset the pulse. -/
def tickerReset (tk : FrameTicker) (r : Rat) : Option GErr × FrameTicker :=
  if r < 1/100 ∨ r > 200 then (some .InvalidFrameRate, tk)
  else if tk.started = false then (some .NoBound, tk)
  else if r ≠ 0 then (none, { tk with d := durOf r })
  else (none, tk)

/-- `obsFrameTicker.TickCount` from part_006 lines 449-451: it reads
`tk.totalframe` (not `tk.tickcount`). -/
def tickerTickCount (tk : FrameTicker) : Int := tk.totalframe

/-- `obsFrameTicker.TotalFrames` from part_006 lines 444-446. -/
def tickerTotalFrames (tk : FrameTicker) : Int := tk.totalframe

/-- `obsFrameTicker.TotalSkipped` from part_006 lines 439-441. -/
def tickerTotalSkipped (tk : FrameTicker) : Int := tk.totalskipped

/-- `obsFrameTicker.SkippedFrames` from part_006 lines 434-436. -/
def tickerSkippedFrames (tk : FrameTicker) : Int := tk.skipped

/-- `obsFrameTicker.switchTo` from part_006 lines 454-499: insert or
replace the map entry for the state's machine serial and start the pulse
loop on the first call. -/
def tickerSwitchTo (tk : FrameTicker) (smSerial : Nat) : FrameTicker :=
  { tk with
    obsKeys := if tk.obsKeys.contains smSerial then tk.obsKeys else tk.obsKeys ++ [smSerial],
    started := true }

/-- One pulse of the internal tick loop (part_006 lines 462-496), its
synchronous part: `atomic.StoreInt64(&tk.tickcount, 0)` first, then
nothing if the tickable map is empty; otherwise CAS `processing` from 0 to
the map size and launch the per-tickable jobs (whose completion effects on
`totalframe`/`skipped`/`processing` happen asynchronously, outside this
function), or on CAS failure count a skipped frame. -/
def tickPulse (tk : FrameTicker) : FrameTicker :=
  let tk2 := { tk with tickcount := 0 }
  if tk2.obsKeys.length = 0 then tk2
  else if tk2.processing = 0 then { tk2 with processing := (tk2.obsKeys.length : Int) }
  else { tk2 with skipped := tk2.skipped + 1, totalskipped := tk2.totalskipped + 1 }

/-- `FrameEvent` from part_006 lines 10-18 (Go iota order). -/
inductive FrameEvent where
  | fEvFree
  | fEvIdle
  | fEvEnter
  | fEvUpdate
deriving DecidableEq, Repr

/-- The mutable cache of `frameObAgent` (part_006 lines 315-324): bound
flag (`eventObCollector.bindstat`), latched state id, cached owner and
value, and the current frame-event classification. -/
structure FrameAgent (O V : Type) where
  bound : Bool
  stateID : StateID
  owner : O
  val : V
  fev : FrameEvent
deriving DecidableEq, Repr

/-- `ObserveProtectedHook` from part_006 lines 76-82 (frame observers use
`init`, `enter`, `exit`, `pick`, `update`; the event variants return the
transformed value and the skip flag). -/
structure FrameHook (O V : Type) where
  hInit : Option (O → StateID → V → V)
  hEnter : Option (O → StateID → V → V × Bool)
  hExit : Option (O → StateID → V → V × Bool)
  hPick : Option (O → StateID → V → V × Bool)
  hUpdate : Option (O → StateID → V → V × Bool)

/-- The default hook installed by `CreateFrameObserver` when `hook` is nil
(part_006 lines 363-365): every callback absent. -/
def noHook : FrameHook O V :=
  { hInit := none, hEnter := none, hExit := none, hPick := none, hUpdate := none }

/-- `frameObAgent.startOb` from part_006 lines 749-766: latch the id via
the bind CAS (`ErrObBeenBound` if already bound), store the owner; when
the state is selected, run `hook.init` if present, classify `Enter` and
register with the ticker. The second result reports whether `switchTo`
was called. -/
def frameStartOb (hook : FrameHook O V) (foa : FrameAgent O V)
    (owner : O) (id : StateID) (val : V) (selected : Bool) :
    Option GErr × FrameAgent O V × Bool :=
  if foa.bound then (some .BeenBound, foa, false)
  else
    let foa2 := { foa with bound := true, stateID := id, owner := owner }
    if selected then
      let v := match hook.hInit with
        | some h => h owner id val
        | none => val
      (none, { foa2 with val := v, fev := .fEvEnter }, true)
    else (none, foa2, false)

/-- `frameObAgent.enter` from part_006 lines 768-782: apply `hook.enter`
with the skip short-circuit (skip leaves the agent untouched), cache the
value and owner, classify `Enter`, register with the ticker (second
result). -/
def frameEnter (hook : FrameHook O V) (foa : FrameAgent O V)
    (owner : O) (id : StateID) (val : V) : FrameAgent O V × Bool :=
  match hook.hEnter with
  | some h =>
    let r := h owner id val
    if r.2 then (foa, false)
    else ({ foa with val := r.1, owner := owner, fev := .fEvEnter }, true)
  | none => ({ foa with val := val, owner := owner, fev := .fEvEnter }, true)

/-- `frameObAgent.exit` from part_006 lines 784-796: cache value and owner
through `hook.exit`; the classification is not changed and the ticker is
not re-registered. -/
def frameExit (hook : FrameHook O V) (foa : FrameAgent O V)
    (owner : O) (id : StateID) (val : V) : FrameAgent O V :=
  match hook.hExit with
  | some h =>
    let r := h owner id val
    if r.2 then foa
    else { foa with val := r.1, owner := owner }
  | none => { foa with val := val, owner := owner }

/-- `frameObAgent.pick` from part_006 lines 798-810: like `exit`, the
classification is not changed. -/
def framePick (hook : FrameHook O V) (foa : FrameAgent O V)
    (owner : O) (id : StateID) (val : V) : FrameAgent O V :=
  match hook.hPick with
  | some h =>
    let r := h owner id val
    if r.2 then foa
    else { foa with val := r.1, owner := owner }
  | none => { foa with val := val, owner := owner }

/-- `frameObAgent.update` from part_006 lines 812-825: cache value and
owner through `hook.update`, classify `Update`. -/
def frameUpdate (hook : FrameHook O V) (foa : FrameAgent O V)
    (owner : O) (id : StateID) (val : V) : FrameAgent O V :=
  match hook.hUpdate with
  | some h =>
    let r := h owner id val
    if r.2 then foa
    else { foa with val := r.1, owner := owner, fev := .fEvUpdate }
  | none => { foa with val := val, owner := owner, fev := .fEvUpdate }

/-- `frameObAgent.resetEv` from part_006 lines 741-747: under the event
mutex, read the classification and reset it to `Idle`; the tick job
(part_006 lines 722-731) delivers the value read to the user frame
callback. -/
def frameResetEv (foa : FrameAgent O V) : FrameEvent × FrameAgent O V :=
  (foa.fev, { foa with fev := .fEvIdle })

/-- The lifecycle calls that may land on a frame observer between two
ticks without (re)selecting its state or updating its value: `exit` and
`pick` events (with their payloads). -/
inductive FNeutralOp (O V : Type) where
  | exitOp (owner : O) (id : StateID) (val : V)
  | pickOp (owner : O) (id : StateID) (val : V)

/-- Apply a neutral lifecycle call to the agent. -/
def applyNeutral (hook : FrameHook O V) (foa : FrameAgent O V) :
    FNeutralOp O V → FrameAgent O V
  | .exitOp o id v => frameExit hook foa o id v
  | .pickOp o id v => framePick hook foa o id v

/-- Machine-level view of `stateBindImp.Set` on table entry `i` (the
selection flag and `stateOn` are untouched). -/
def smSet (sm : SM O V) (i now : Nat) (v : V) : SM O V :=
  { sm with stateTab := updSub sm.stateTab i now v }

/-- Machine-level view of `StateBinder.AddObserver` on table entry `i`. -/
def smAddObs (sm : SM O V) (i ob : Nat) : SM O V :=
  { sm with stateTab := addObs sm.stateTab i ob }

/-- `StateMachine.SetOwner` from part_004 lines 74-78. -/
def smSetOwner (sm : SM O V) (o : O) : SM O V :=
  { sm with owner := o }

/-- Machine states reachable through the public API: creation,
registration, transitions (any closure), value updates, observer
attachment and owner replacement. -/
inductive Reach : SM O V → Prop where
  | init (seq : Nat) (owner : O) : Reach (NewStateMachine seq owner)
  | reg {sm : SM O V} (now : Nat) (v : V) : Reach sm → Reach (RegState sm now v)
  | trans {sm : SM O V} (trs : StateID → StateID) {err : Option GErr}
      {sm2 : SM O V} {tr : List Cb} :
      Reach sm → transform sm trs = .ok err sm2 tr → Reach sm2
  | set {sm : SM O V} (i now : Nat) (v : V) : Reach sm → Reach (smSet sm i now v)
  | addOb {sm : SM O V} (i ob : Nat) : Reach sm → Reach (smAddObs sm i ob)
  | setOwner {sm : SM O V} (o : O) : Reach sm → Reach (smSetOwner sm o)

/-- Selection invariant carried through every reachable state: with an
empty table the selected index is still zero; with a nonempty table the
selected index is in range and a binding's flag is set exactly when its
position is that index. -/
def selOK (sm : SM O V) : Prop :=
  (sm.stateTab = [] → sm.stateOn.RegSerial = 0) ∧
  (sm.stateTab ≠ [] →
    0 ≤ sm.stateOn.RegSerial ∧ sm.stateOn.RegSerial < (sm.stateTab.length : Int)) ∧
  ∀ i (h : i < sm.stateTab.length),
    (sm.stateTab[i].selected = true ↔ i = sm.stateOn.RegSerial.toNat)

/-- A two-state machine (serial 7, owner 100): values 10 and 20 registered
at instants 11 and 12. -/
def smA : SM Nat Nat := RegState (RegState (NewStateMachine 7 100) 11 10) 12 20

/-- The event from state 0 to state 1 of `smA`, no hook. -/
def evAB : EventBind Nat Nat := { aIdx := 0, bIdx := 1, hook := none }

/-- The event from state 0 to state 1 with a hook that always errors. -/
def evABHook : EventBind Nat Nat :=
  { aIdx := 0, bIdx := 1, hook := some (fun _ _ _ => some (.userErr 42)) }

/-- A self-loop event on state 0 of `smA`, no hook. -/
def evAA : EventBind Nat Nat := { aIdx := 0, bIdx := 0, hook := none }

/-- The event from state 1 to state 0 of `smA`, no hook. -/
def evBA : EventBind Nat Nat := { aIdx := 1, bIdx := 0, hook := none }

/-- A started ticker mid-flight: one tickable bound, previous frame still
processing, no counters advanced yet. -/
def busyTicker : FrameTicker :=
  { started := true, d := durOf 5, obsKeys := [8], processing := 1,
    skipped := 0, totalskipped := 0, totalframe := 0, tickcount := 0 }

/-- A bound frame agent currently idle. -/
def agentA : FrameAgent Nat Nat :=
  { bound := true, stateID := { SMSerial := 7, RegSerial := 0 }, owner := 100,
    val := 10, fev := .fEvIdle }

/-- An unbound frame agent (before `startOb`). -/
def agentFresh : FrameAgent Nat Nat :=
  { bound := false, stateID := STIDInvalid, owner := 0, val := 0, fev := .fEvFree }

/-- A binding with two observers, for exercising `Set`. -/
def bindA : Binding Nat :=
  { id := { SMSerial := 7, RegSerial := 0 }, sub := 10, subUpdTime := 11,
    selected := true, obs := [3, 4] }

theorem updSel_length (tab : List (Binding V)) (j : Nat) (v : Bool) :
    (updSel tab j v).length = tab.length := by
  induction tab generalizing j with
  | nil => rfl
  | cons b t ih =>
    cases j with
    | zero => rfl
    | succ m => simpa [updSel] using ih m

theorem updSub_length (tab : List (Binding V)) (j now : Nat) (v : V) :
    (updSub tab j now v).length = tab.length := by
  induction tab generalizing j with
  | nil => rfl
  | cons b t ih =>
    cases j with
    | zero => rfl
    | succ m => simpa [updSub] using ih m

theorem addObs_length (tab : List (Binding V)) (j ob : Nat) :
    (addObs tab j ob).length = tab.length := by
  induction tab generalizing j with
  | nil => rfl
  | cons b t ih =>
    cases j with
    | zero => rfl
    | succ m => simpa [addObs] using ih m

theorem updSel_sel (tab : List (Binding V)) (j : Nat) (v : Bool) (i : Nat)
    (h : i < (updSel tab j v).length) (h2 : i < tab.length) :
    (updSel tab j v)[i].selected = if i = j then v else tab[i].selected := by
  induction tab generalizing i j with
  | nil => simp at h2
  | cons b t ih =>
    cases j with
    | zero =>
      cases i with
      | zero => simp [updSel]
      | succ n => simp [updSel]
    | succ m =>
      cases i with
      | zero => simp [updSel]
      | succ n =>
        have h2n : n < t.length := Nat.lt_of_succ_lt_succ h2
        have hn : n < (updSel t m v).length := by
          rw [updSel_length]; exact h2n
        simpa [updSel] using ih m n hn h2n

theorem updSub_sel (tab : List (Binding V)) (j now : Nat) (v : V) (i : Nat)
    (h : i < (updSub tab j now v).length) (h2 : i < tab.length) :
    (updSub tab j now v)[i].selected = tab[i].selected := by
  induction tab generalizing i j with
  | nil => simp at h2
  | cons b t ih =>
    cases j with
    | zero =>
      cases i with
      | zero => simp [updSub]
      | succ n => simp [updSub]
    | succ m =>
      cases i with
      | zero => simp [updSub]
      | succ n =>
        have h2n : n < t.length := Nat.lt_of_succ_lt_succ h2
        have hn : n < (updSub t m now v).length := by
          rw [updSub_length]; exact h2n
        simpa [updSub] using ih m n hn h2n

theorem addObs_sel (tab : List (Binding V)) (j ob : Nat) (i : Nat)
    (h : i < (addObs tab j ob).length) (h2 : i < tab.length) :
    (addObs tab j ob)[i].selected = tab[i].selected := by
  induction tab generalizing i j with
  | nil => simp at h2
  | cons b t ih =>
    cases j with
    | zero =>
      cases i with
      | zero => simp [addObs]
      | succ n => simp [addObs]
    | succ m =>
      cases i with
      | zero => simp [addObs]
      | succ n =>
        have h2n : n < t.length := Nat.lt_of_succ_lt_succ h2
        have hn : n < (addObs t m ob).length := by
          rw [addObs_length]; exact h2n
        simpa [addObs] using ih m n hn h2n

theorem transform_nothing {sm : SM O V} {trs : StateID → StateID}
    (h : trs sm.stateOn = sm.stateOn) :
    transform sm trs = .ok (some .NothingTodo) sm [] := by
  simp only [transform]
  rw [if_pos h]

theorem transform_invalid {sm : SM O V} {trs : StateID → StateID}
    (h1 : trs sm.stateOn ≠ sm.stateOn)
    (h2 : (trs sm.stateOn).IsInvalid = true) :
    transform sm trs = .ok none sm [] := by
  simp only [transform]
  rw [if_neg h1, if_pos h2]

theorem transform_range {sm : SM O V} {trs : StateID → StateID}
    (h1 : trs sm.stateOn ≠ sm.stateOn)
    (h2 : (trs sm.stateOn).IsInvalid = false)
    (h3 : (sm.stateTab.length : Int) ≤ (trs sm.stateOn).RegSerial) :
    transform sm trs = .ok (some .InvalidChange) sm [] := by
  simp only [transform]
  rw [if_neg h1, if_neg (by simp [h2]), if_pos h3]

theorem transform_go {sm : SM O V} {trs : StateID → StateID}
    (h1 : trs sm.stateOn ≠ sm.stateOn)
    (h2 : (trs sm.stateOn).IsInvalid = false)
    (h3 : (trs sm.stateOn).RegSerial < (sm.stateTab.length : Int))
    (h4 : 0 ≤ sm.stateOn.RegSerial)
    (h5 : sm.stateOn.RegSerial < (sm.stateTab.length : Int)) :
    transform sm trs = .ok none
      { sm with
        stateOn := trs sm.stateOn,
        stateTab := updSel (updSel sm.stateTab sm.stateOn.RegSerial.toNat false)
          (trs sm.stateOn).RegSerial.toNat true }
      [.exitCb sm.stateOn.RegSerial.toNat, .enterCb (trs sm.stateOn).RegSerial.toNat] := by
  simp only [transform]
  rw [if_neg h1, if_neg (by simp [h2]), if_neg (not_le.mpr h3), dif_pos ⟨h4, h5⟩]

theorem transform_ok_cases {sm : SM O V} {trs : StateID → StateID}
    {err : Option GErr} {sm2 : SM O V} {tr : List Cb}
    (h : transform sm trs = .ok err sm2 tr) :
    (sm2 = sm ∧ tr = []) ∨
    ((trs sm.stateOn).IsInvalid = false ∧
     (trs sm.stateOn).RegSerial < (sm.stateTab.length : Int) ∧
     0 ≤ sm.stateOn.RegSerial ∧ sm.stateOn.RegSerial < (sm.stateTab.length : Int) ∧
     sm2 = { sm with
       stateOn := trs sm.stateOn,
       stateTab := updSel (updSel sm.stateTab sm.stateOn.RegSerial.toNat false)
         (trs sm.stateOn).RegSerial.toNat true } ∧
     tr = [.exitCb sm.stateOn.RegSerial.toNat,
           .enterCb (trs sm.stateOn).RegSerial.toNat]) := by
  simp only [transform] at h
  split at h
  · injection h with he hs ht
    exact Or.inl ⟨hs.symm, ht.symm⟩
  · split at h
    · injection h with he hs ht
      exact Or.inl ⟨hs.symm, ht.symm⟩
    · split at h
      · injection h with he hs ht
        exact Or.inl ⟨hs.symm, ht.symm⟩
      · split at h
        · injection h with he hs ht
          rename_i hne hinv hlen hwf
          refine Or.inr ⟨?_, ?_, hwf.1, hwf.2, hs.symm, ht.symm⟩
          · simpa using hinv
          · omega
        · exact absurd h (by simp)

theorem isInvalid_false {s : StateID} (h : s.IsInvalid = false) :
    0 ≤ s.RegSerial ∧ s.SMSerial ≠ 0 := by
  simp only [StateID.IsInvalid, Bool.or_eq_false_iff, decide_eq_false_iff_not,
    beq_eq_false_iff_ne, ne_eq, not_lt] at h
  exact ⟨h.1, h.2⟩

theorem selOK_init (seq : Nat) (owner : O) :
    selOK (NewStateMachine seq owner : SM O V) := by
  refine ⟨fun _ => rfl, fun hne => absurd rfl hne, fun i h => ?_⟩
  simp [NewStateMachine] at h

theorem selOK_reg {sm : SM O V} (hs : selOK sm) (now : Nat) (v : V) :
    selOK (RegState sm now v) := by
  obtain ⟨hemp, hrange, hsel⟩ := hs
  have hlen : (RegState sm now v).stateTab.length = sm.stateTab.length + 1 := by
    simp [RegState]
  have hOn : (RegState sm now v).stateOn = sm.stateOn := rfl
  refine ⟨fun habs => ?_, fun _ => ?_, fun i h => ?_⟩
  · exfalso
    have := congrArg List.length habs
    rw [hlen] at this
    simp at this
  · rw [hOn, hlen]
    rcases Nat.eq_zero_or_pos sm.stateTab.length with hL | hL
    · have h0 : sm.stateOn.RegSerial = 0 := hemp (List.length_eq_zero.mp hL)
      rw [h0, hL]
      norm_num
    · have hne : sm.stateTab ≠ [] := by
        intro hnil
        rw [hnil] at hL
        simp at hL
      have hr := hrange hne
      constructor
      · exact hr.1
      · omega
  · rw [hlen] at h
    rw [hOn]
    by_cases hiL : i < sm.stateTab.length
    · have hg : (RegState sm now v).stateTab[i] = sm.stateTab[i] :=
        List.getElem_append_left hiL
      rw [hg]
      exact hsel i hiL
    · have hiEq : i = sm.stateTab.length := by omega
      subst hiEq
      have hget : (RegState sm now v).stateTab[sm.stateTab.length] =
          { id := { SMSerial := sm.smSerial, RegSerial := (sm.stateTab.length : Int) },
            sub := v, subUpdTime := now,
            selected := decide ((sm.stateTab.length : Int) = 0), obs := [] } :=
        List.getElem_concat_length sm.stateTab _ sm.stateTab.length rfl (by simp)
      rw [hget]
      rcases Nat.eq_zero_or_pos sm.stateTab.length with hL | hL
      · have hnil : sm.stateTab = [] := List.length_eq_zero.mp hL
        have h0 : sm.stateOn.RegSerial = 0 := hemp hnil
        simp [hL, h0]
      · have hne : sm.stateTab ≠ [] := by
          intro hnil
          rw [hnil] at hL
          simp at hL
        have hr := hrange hne
        have htoNat : sm.stateOn.RegSerial.toNat < sm.stateTab.length := by omega
        constructor
        · intro habs
          simp only [decide_eq_true_eq] at habs
          omega
        · intro habs
          omega

theorem selOK_trans {sm : SM O V} {trs : StateID → StateID}
    {err : Option GErr} {sm2 : SM O V} {tr : List Cb}
    (hs : selOK sm) (h : transform sm trs = .ok err sm2 tr) : selOK sm2 := by
  rcases transform_ok_cases h with ⟨hsm, -⟩ | ⟨hinv, hlt, h0, hR, hsm, -⟩
  · rw [hsm]; exact hs
  · obtain ⟨hemp, hrange, hsel⟩ := hs
    have hnext := isInvalid_false hinv
    subst hsm
    set old := sm.stateOn.RegSerial.toNat with hold
    set nw := (trs sm.stateOn).RegSerial.toNat with hnw
    have hlen2 : (updSel (updSel sm.stateTab old false) nw true).length =
        sm.stateTab.length := by
      rw [updSel_length, updSel_length]
    refine ⟨fun habs => ?_, fun _ => ⟨hnext.1, ?_⟩, fun i h => ?_⟩
    · exfalso
      have h2 : updSel (updSel sm.stateTab old false) nw true = [] := habs
      have h3 := congrArg List.length h2
      rw [hlen2] at h3
      simp only [List.length_nil] at h3
      omega
    · simp only [hlen2]
      exact hlt
    · simp only [hlen2] at h
      have hb1 : i < (updSel sm.stateTab old false).length := by
        rw [updSel_length]; exact h
      have hb2 : i < (updSel (updSel sm.stateTab old false) nw true).length := by
        rw [hlen2]; exact h
      rw [updSel_sel _ _ _ _ hb2 hb1, updSel_sel _ _ _ _ hb1 h]
      have htoNat : (trs sm.stateOn).RegSerial.toNat = nw := rfl
      by_cases hin : i = nw
      · simp [hin, htoNat]
      · by_cases hio : i = old
        · simp [hin, hio, htoNat]
        · simp only [if_neg hin, if_neg hio, htoNat]
          rw [hsel i h]
          constructor
          · intro habs; exact absurd habs hio
          · intro habs; exact absurd habs hin

theorem selOK_set {sm : SM O V} (hs : selOK sm) (i now : Nat) (v : V) :
    selOK (smSet sm i now v) := by
  obtain ⟨hemp, hrange, hsel⟩ := hs
  refine ⟨fun habs => ?_, fun hne => ?_, fun j h => ?_⟩
  · apply hemp
    have : (updSub sm.stateTab i now v).length = 0 := by
      simp only [smSet] at habs
      rw [habs]; rfl
    rw [updSub_length] at this
    exact List.length_eq_zero.mp this
  · have hne2 : sm.stateTab ≠ [] := by
      intro hnil
      apply hne
      simp [smSet, hnil, updSub]
    have := hrange hne2
    simp only [smSet, updSub_length]
    exact this
  · simp only [smSet, updSub_length] at h
    have hb : j < (updSub sm.stateTab i now v).length := by
      rw [updSub_length]; exact h
    simp only [smSet]
    rw [updSub_sel _ _ _ _ _ hb h]
    exact hsel j h

theorem selOK_addOb {sm : SM O V} (hs : selOK sm) (i ob : Nat) :
    selOK (smAddObs sm i ob) := by
  obtain ⟨hemp, hrange, hsel⟩ := hs
  refine ⟨fun habs => ?_, fun hne => ?_, fun j h => ?_⟩
  · apply hemp
    have : (addObs sm.stateTab i ob).length = 0 := by
      simp only [smAddObs] at habs
      rw [habs]; rfl
    rw [addObs_length] at this
    exact List.length_eq_zero.mp this
  · have hne2 : sm.stateTab ≠ [] := by
      intro hnil
      apply hne
      simp [smAddObs, hnil, addObs]
    have := hrange hne2
    simp only [smAddObs, addObs_length]
    exact this
  · simp only [smAddObs, addObs_length] at h
    have hb : j < (addObs sm.stateTab i ob).length := by
      rw [addObs_length]; exact h
    simp only [smAddObs]
    rw [addObs_sel _ _ _ _ hb h]
    exact hsel j h

theorem selOK_reach {sm : SM O V} (h : Reach sm) : selOK sm := by
  induction h with
  | init seq owner => exact selOK_init seq owner
  | reg now v _ ih => exact selOK_reg ih now v
  | trans trs _ hok ih => exact selOK_trans ih hok
  | set i now v _ ih => exact selOK_set ih i now v
  | addOb i ob _ ih => exact selOK_addOb ih i ob
  | setOwner o _ ih => exact ih

theorem trigger_aborted [Inhabited V] {ev : EventBind O V} {sm : SM O V}
    (h : (evFn ev sm sm.stateOn).2 = STIDInvalid) :
    evTrigger ev sm = some ((evFn ev sm sm.stateOn).1, sm, []) := by
  by_cases hinv : (fun cur => (evFn ev sm cur).2) sm.stateOn = sm.stateOn
  · rw [evTrigger, transform_nothing hinv]
  · rw [evTrigger, transform_invalid hinv ?_]
    show ((evFn ev sm sm.stateOn).2).IsInvalid = true
    rw [h]
    rfl

/-- C1: for every state machine and transition function, `transform`
computes `next = trs(stateOn)` and: returns `NothingToDo` with no
callbacks when `next` equals the current id; returns nil with no
callbacks when `next` is the invalid sentinel (serial zero or negative
index); returns `InvalidChange` with no callbacks when `next`'s index is
out of table range; otherwise (current index in range, as every reachable
machine guarantees) fires `onExit` on the current binding, assigns
`stateOn := next`, fires `onEnter` on the next binding, in that order,
and returns nil. -/
theorem claim_transform_case_analysis (sm : SM O V) (trs : StateID → StateID) :
    (trs sm.stateOn = sm.stateOn →
      transform sm trs = .ok (some .NothingTodo) sm []) ∧
    (trs sm.stateOn ≠ sm.stateOn → (trs sm.stateOn).IsInvalid = true →
      transform sm trs = .ok none sm []) ∧
    (trs sm.stateOn ≠ sm.stateOn → (trs sm.stateOn).IsInvalid = false →
      (sm.stateTab.length : Int) ≤ (trs sm.stateOn).RegSerial →
      transform sm trs = .ok (some .InvalidChange) sm []) ∧
    (trs sm.stateOn ≠ sm.stateOn → (trs sm.stateOn).IsInvalid = false →
      (trs sm.stateOn).RegSerial < (sm.stateTab.length : Int) →
      0 ≤ sm.stateOn.RegSerial → sm.stateOn.RegSerial < (sm.stateTab.length : Int) →
      transform sm trs = .ok none
        { sm with
          stateOn := trs sm.stateOn,
          stateTab := updSel (updSel sm.stateTab sm.stateOn.RegSerial.toNat false)
            (trs sm.stateOn).RegSerial.toNat true }
        [.exitCb sm.stateOn.RegSerial.toNat, .enterCb (trs sm.stateOn).RegSerial.toNat]) :=
  ⟨fun h => transform_nothing h,
   fun h1 h2 => transform_invalid h1 h2,
   fun h1 h2 h3 => transform_range h1 h2 h3,
   fun h1 h2 h3 h4 h5 => transform_go h1 h2 h3 h4 h5⟩

/-- Witness for C1: the success branch evaluated on the concrete
two-state machine `smA` with the transition to state 1. -/
theorem claim_transform_case_analysis_witness :
    ((fun _ => ({ SMSerial := 7, RegSerial := 1 } : StateID)) smA.stateOn ≠ smA.stateOn ∧
     (({ SMSerial := 7, RegSerial := 1 } : StateID)).IsInvalid = false ∧
     (({ SMSerial := 7, RegSerial := 1 } : StateID)).RegSerial < (smA.stateTab.length : Int) ∧
     0 ≤ smA.stateOn.RegSerial ∧ smA.stateOn.RegSerial < (smA.stateTab.length : Int)) ∧
    transform smA (fun _ => { SMSerial := 7, RegSerial := 1 }) = .ok none
      { smA with
        stateOn := { SMSerial := 7, RegSerial := 1 },
        stateTab := updSel (updSel smA.stateTab 0 false) 1 true }
      [.exitCb 0, .enterCb 1] :=
  ⟨⟨by decide, by decide, by decide, by decide, by decide⟩,
   (claim_transform_case_analysis smA (fun _ => { SMSerial := 7, RegSerial := 1 })).2.2.2
     (by decide) (by decide) (by decide) (by decide) (by decide)⟩

/-- C2: triggering an event whose source state is not the current one
returns `AlreadyChanged` when the machine is already on the destination
and `UnexpectedState` otherwise; the machine is unchanged, no exit or
enter callback fires, and the transition closure returns the invalid
sentinel. -/
theorem claim_trigger_unexpected [Inhabited V] (ev : EventBind O V) (sm : SM O V)
    (h : sm.stateOn ≠ ev.aID sm) :
    evTrigger ev sm =
      some ((if sm.stateOn = ev.bID sm then some .AlreadyChanged else some .UnexpectedState),
        sm, []) ∧
    (evFn ev sm sm.stateOn).2 = STIDInvalid := by
  have hfn : evFn ev sm sm.stateOn =
      ((if sm.stateOn = ev.bID sm then some .AlreadyChanged else some .UnexpectedState),
        STIDInvalid) := by
    rw [evFn, if_pos h]
    by_cases hb : sm.stateOn = ev.bID sm <;> simp [hb]
  have h2 : (evFn ev sm sm.stateOn).2 = STIDInvalid := by rw [hfn]
  refine ⟨?_, h2⟩
  rw [trigger_aborted h2, hfn]

/-- Witness for C2: triggering `evBA` (source state 1) on `smA` (current
state 0 = the destination) reports `AlreadyChanged` and leaves the
machine alone. -/
theorem claim_trigger_unexpected_witness :
    smA.stateOn ≠ evBA.aID smA ∧
    evTrigger evBA smA = some (some .AlreadyChanged, smA, []) ∧
    (evFn evBA smA smA.stateOn).2 = STIDInvalid := by
  have h : smA.stateOn ≠ evBA.aID smA := by decide
  have hc := claim_trigger_unexpected evBA smA h
  refine ⟨h, ?_, hc.2⟩
  rw [hc.1]
  decide

/-- C3: when the machine sits on the event's source state and the user
hook returns an error, `Trigger` returns exactly that error, the machine
is unchanged (still on the source state) and no exit or enter callback
fires on any binding. -/
theorem claim_trigger_hook_error [Inhabited V] (ev : EventBind O V) (sm : SM O V)
    (hcur : sm.stateOn = ev.aID sm)
    (hook : O → V → V → Option GErr) (hhook : ev.hook = some hook)
    (e : GErr) (herr : hook sm.owner (sm.getSub ev.aIdx) (sm.getSub ev.bIdx) = some e) :
    evTrigger ev sm = some (some e, sm, []) := by
  have hfn : evFn ev sm sm.stateOn = (some e, STIDInvalid) := by
    rw [evFn, if_neg (not_not_intro hcur), hhook]
    simp only [herr]
  have h2 : (evFn ev sm sm.stateOn).2 = STIDInvalid := by rw [hfn]
  rw [trigger_aborted h2, hfn]

/-- Witness for C3: triggering `evABHook` (whose hook always returns user
error 42) on `smA` returns that error and keeps the machine intact. -/
theorem claim_trigger_hook_error_witness :
    smA.stateOn = evABHook.aID smA ∧
    evABHook.hook = some (fun _ _ _ => some (.userErr 42)) ∧
    (fun (_ : Nat) (_ : Nat) (_ : Nat) => some (GErr.userErr 42))
      smA.owner (smA.getSub evABHook.aIdx) (smA.getSub evABHook.bIdx) = some (.userErr 42) ∧
    evTrigger evABHook smA = some (some (.userErr 42), smA, []) :=
  ⟨by decide, rfl, rfl,
   claim_trigger_hook_error evABHook smA (by decide)
     (fun _ _ _ => some (.userErr 42)) rfl (.userErr 42) rfl⟩

/-- C10: a hook-less event whose source and destination are the same
binding, triggered while the machine sits on that state, returns nil and
fires no callbacks: the transition closure returns the current id,
`transform` reports `NothingToDo`, and `Trigger` discards `transform`'s
return value. -/
theorem claim_trigger_self_loop [Inhabited V] (ev : EventBind O V) (sm : SM O V)
    (hab : ev.aIdx = ev.bIdx) (hhook : ev.hook = none)
    (hcur : sm.stateOn = ev.aID sm) :
    evTrigger ev sm = some (none, sm, []) ∧
    transform sm (fun cur => (evFn ev sm cur).2) = .ok (some .NothingTodo) sm [] ∧
    (evFn ev sm sm.stateOn).2 = sm.stateOn := by
  have hfn : evFn ev sm sm.stateOn = (none, ev.bID sm) := by
    rw [evFn, if_neg (not_not_intro hcur), hhook]
  have hb : ev.bID sm = sm.stateOn := by
    rw [hcur]
    simp [EventBind.aID, EventBind.bID, hab]
  have hret : (evFn ev sm sm.stateOn).2 = sm.stateOn := by rw [hfn]; exact hb
  have htr : transform sm (fun cur => (evFn ev sm cur).2) =
      .ok (some .NothingTodo) sm [] := transform_nothing hret
  refine ⟨?_, htr, hret⟩
  rw [evTrigger, htr, hfn]

/-- Witness for C10: the self-loop event `evAA` triggered on `smA`. -/
theorem claim_trigger_self_loop_witness :
    evAA.aIdx = evAA.bIdx ∧ evAA.hook = none ∧ smA.stateOn = evAA.aID smA ∧
    evTrigger evAA smA = some (none, smA, []) ∧
    transform smA (fun cur => (evFn evAA smA cur).2) = .ok (some .NothingTodo) smA [] := by
  have hc := claim_trigger_self_loop evAA smA (by decide) rfl (by decide)
  exact ⟨by decide, rfl, by decide, hc.1, hc.2.1⟩

/-- C8: on every reachable machine with at least one registered state,
exactly one binding carries `selected = true`; registering into an empty
machine marks that first binding selected; and every transition that runs
the callback pair clears the exited binding's flag before setting the
entered binding's flag (trace `[onExit old, onEnter new]`, table written
by clearing `old` and then setting `new`). -/
theorem claim_selection_exactly_one (sm : SM O V) (h : Reach sm) :
    (sm.stateTab ≠ [] →
      ∃! i : Fin sm.stateTab.length, (sm.stateTab.get i).selected = true) ∧
    (∀ (sm0 : SM O V) (now : Nat) (v : V), sm0.stateTab = [] →
      ∃ b, (RegState sm0 now v).stateTab = [b] ∧ b.selected = true) ∧
    (∀ (trs : StateID → StateID) (err : Option GErr) (sm2 : SM O V) (tr : List Cb),
      transform sm trs = .ok err sm2 tr → tr ≠ [] →
      tr = [.exitCb sm.stateOn.RegSerial.toNat,
            .enterCb (trs sm.stateOn).RegSerial.toNat] ∧
      sm2.stateTab = updSel (updSel sm.stateTab sm.stateOn.RegSerial.toNat false)
        (trs sm.stateOn).RegSerial.toNat true) := by
  obtain ⟨hemp, hrange, hsel⟩ := selOK_reach h
  refine ⟨fun hne => ?_, fun sm0 now v h0 => ?_, fun trs err sm2 tr hok hne => ?_⟩
  · have hr := hrange hne
    have hlt : sm.stateOn.RegSerial.toNat < sm.stateTab.length := by omega
    refine ⟨⟨sm.stateOn.RegSerial.toNat, hlt⟩, ?_, ?_⟩
    · show (sm.stateTab.get ⟨sm.stateOn.RegSerial.toNat, hlt⟩).selected = true
      rw [List.get_eq_getElem]
      exact (hsel _ hlt).mpr rfl
    · intro j hj
      apply Fin.ext
      have hj2 : sm.stateTab[(j : Nat)].selected = true := by
        rw [← List.get_eq_getElem]
        exact hj
      exact (hsel _ j.isLt).mp hj2
  · refine ⟨(⟨⟨sm0.smSerial, (sm0.stateTab.length : Int)⟩, v, now,
        decide ((sm0.stateTab.length : Int) = 0), []⟩ : Binding V), ?_, ?_⟩
    · show sm0.stateTab ++ [_] = _
      rw [h0]
      rfl
    · simp [h0]
  · rcases transform_ok_cases hok with ⟨-, htr⟩ | ⟨-, -, -, -, hsm, htr⟩
    · exact absurd htr hne
    · exact ⟨htr, by rw [hsm]⟩

/-- Witness for C8: the two-state machine `smA` is reachable and has a
unique selected binding. -/
theorem claim_selection_exactly_one_witness :
    Reach smA ∧ smA.stateTab ≠ [] ∧
    ∃! i : Fin smA.stateTab.length, (smA.stateTab.get i).selected = true := by
  have hr : Reach smA := Reach.reg 12 20 (Reach.reg 11 10 (Reach.init 7 100))
  exact ⟨hr, by decide, (claim_selection_exactly_one smA hr).1 (by decide)⟩

theorem egLoop_eq_trySeq (eg : List (EvMember S)) (s : S) :
    egLoop eg s = groupTriggerSpec.trySeq eg s := by
  induction eg generalizing s with
  | nil => rfl
  | cons ev rest ih =>
    simp only [egLoop, groupTriggerSpec.trySeq]
    cases hr : ev s with
    | mk e s2 =>
      cases e with
      | none => rfl
      | some e2 => simpa using ih s2

theorem egLoop_errs (eg : List (EvMember S)) (s : S) :
    (egLoop eg s).1 = none ∨ (egLoop eg s).1 = some .GroupFailure := by
  induction eg generalizing s with
  | nil => exact Or.inr rfl
  | cons ev rest ih =>
    simp only [egLoop]
    cases hr : ev s with
    | mk e s2 =>
      cases e with
      | none => exact Or.inl rfl
      | some e2 => simpa using ih s2

/-- C4: a group trigger on no members returns `EmptyGroup`; on a nonempty
group it runs the head first: if the head succeeds it returns nil with
the head's resulting state (the remaining members are never run), if the
head fails it continues with the rest on the head's resulting state; the
loop's only error is `GroupFailure` (returned exactly when every member
failed); and the whole function agrees with the specification text. -/
theorem claim_group_trigger (eg : List (EvMember S)) (s : S) :
    (eg = [] → eventGroupTrigger eg s = (some .EmptyGroup, s)) ∧
    (∀ (ev : EvMember S) (rest : List (EvMember S)), eg = ev :: rest →
      (ev s).1 = none → eventGroupTrigger eg s = (none, (ev s).2)) ∧
    (∀ (ev : EvMember S) (rest : List (EvMember S)) (e : GErr), eg = ev :: rest →
      (ev s).1 = some e → eventGroupTrigger eg s = egLoop rest (ev s).2) ∧
    ((egLoop eg s).1 = none ∨ (egLoop eg s).1 = some .GroupFailure) ∧
    (eventGroupTrigger eg s = groupTriggerSpec eg s) := by
  refine ⟨fun h0 => ?_, fun ev rest hcons hok => ?_, fun ev rest e hcons herr => ?_,
    egLoop_errs eg s, ?_⟩
  · rw [h0]
    rfl
  · subst hcons
    simp only [eventGroupTrigger, List.length_cons, egLoop]
    rw [if_neg (by omega)]
    cases hr : ev s with
    | mk e2 s2 =>
      rw [hr] at hok
      simp only at hok
      subst hok
      rfl
  · subst hcons
    simp only [eventGroupTrigger, List.length_cons, egLoop]
    rw [if_neg (by omega)]
    cases hr : ev s with
    | mk e2 s2 =>
      rw [hr] at herr
      simp only at herr
      subst herr
      rfl
  · cases eg with
    | nil => rfl
    | cons ev rest =>
      simp only [eventGroupTrigger, List.length_cons, groupTriggerSpec]
      rw [if_neg (by omega)]
      exact egLoop_eq_trySeq (ev :: rest) s

/-- Witness for C4: a two-member group over state `Nat` whose first member
fails and whose second succeeds stops at the second member. -/
theorem claim_group_trigger_witness :
    (((fun s => (some (GErr.userErr 1), s + 1)) : EvMember Nat) ::
      [((fun s => (none, s * 10)) : EvMember Nat)] =
      ((fun s => (some (GErr.userErr 1), s + 1)) : EvMember Nat) ::
      [((fun s => (none, s * 10)) : EvMember Nat)]) ∧
    ((((fun s => (some (GErr.userErr 1), s + 1)) : EvMember Nat)) 5).1 =
      some (GErr.userErr 1) ∧
    eventGroupTrigger
      (((fun s => (some (GErr.userErr 1), s + 1)) : EvMember Nat) ::
        [((fun s => (none, s * 10)) : EvMember Nat)]) 5 = (none, 60) := by
  have hc := claim_group_trigger
    (((fun s => (some (GErr.userErr 1), s + 1)) : EvMember Nat) ::
      [((fun s => (none, s * 10)) : EvMember Nat)]) 5
  refine ⟨rfl, rfl, ?_⟩
  rw [hc.2.2.1 _ _ (GErr.userErr 1) rfl rfl]
  rfl

/-- C9: `Set(v)` stores the value (a subsequent `Get` returns it), stamps
the update time so that under Go's non-decreasing clock `GetUpdTime` never
decreases across successive `Set` calls, and fans an `update` callback
carrying the new value out to every observer in the binding's list. -/
theorem claim_bind_set (sb : Binding V) (owner : O) (t1 t2 : Nat) (v1 v2 : V)
    (h0 : sb.GetUpdTime ≤ t1) (h12 : t1 ≤ t2) :
    ((bindSet sb owner t1 v1).1.Get = v1) ∧
    (sb.GetUpdTime ≤ (bindSet sb owner t1 v1).1.GetUpdTime) ∧
    ((bindSet sb owner t1 v1).1.GetUpdTime ≤
      (bindSet (bindSet sb owner t1 v1).1 owner t2 v2).1.GetUpdTime) ∧
    ((bindSet sb owner t1 v1).2 =
      sb.obs.map (fun ob => { ob := ob, owner := owner, id := sb.id, val := v1 })) := by
  refine ⟨rfl, ?_, ?_, rfl⟩
  · simpa [bindSet, Binding.GetUpdTime] using h0
  · simpa [bindSet, Binding.GetUpdTime] using h12

/-- Witness for C9: `Set` on the concrete binding `bindA` (two observers)
at instants 12 then 13. -/
theorem claim_bind_set_witness :
    bindA.GetUpdTime ≤ 12 ∧ (12 : Nat) ≤ 13 ∧
    (bindSet bindA (100 : Nat) 12 5).1.Get = 5 ∧
    bindA.GetUpdTime ≤ (bindSet bindA (100 : Nat) 12 5).1.GetUpdTime ∧
    (bindSet bindA (100 : Nat) 12 5).2 =
      [{ ob := 3, owner := 100, id := bindA.id, val := 5 },
       { ob := 4, owner := 100, id := bindA.id, val := 5 }] := by
  have hc := claim_bind_set bindA (100 : Nat) 12 13 5 6 (by decide) (by decide)
  refine ⟨by decide, by decide, hc.1, hc.2.1, ?_⟩
  rw [hc.2.2.2]
  rfl

/-- C5 (code-bug evidence): `Reset(0)` never succeeds — the range check
`framerate < 0.01` precedes the zero-means-keep-previous-rate branch, so
every ticker (started or not) gets `ErrObInvalidFrameRate` back, contrary
to the interface documentation ("if framerate be set to zero, previous
config will be used") and the claim; evaluated concretely on the started
ticker `busyTicker`. The in-range behaviour the claim also states (rebind
to `1/r`, `NoBound` iff never started) does hold and is recorded here. -/
theorem claim_reset_zero_rejected :
    (∀ tk : FrameTicker, tickerReset tk 0 = (some .InvalidFrameRate, tk)) ∧
    tickerReset busyTicker 0 = (some .InvalidFrameRate, busyTicker) ∧
    (∀ (tk : FrameTicker) (r : Rat), 1/100 ≤ r → r ≤ 200 → tk.started = true →
      tickerReset tk r = (none, { tk with d := durOf r })) ∧
    (∀ (tk : FrameTicker) (r : Rat), 1/100 ≤ r → r ≤ 200 → tk.started = false →
      tickerReset tk r = (some .NoBound, tk)) := by
  have hz : ∀ tk : FrameTicker, tickerReset tk 0 = (some .InvalidFrameRate, tk) := by
    intro tk
    rw [tickerReset, if_pos]
    left
    norm_num
  refine ⟨hz, hz busyTicker, fun tk r h1 h2 hs => ?_, fun tk r h1 h2 hs => ?_⟩
  · have hr0 : r ≠ 0 := by
      intro h0
      rw [h0] at h1
      norm_num at h1
    rw [tickerReset, if_neg (by push_neg; exact ⟨h1, h2⟩), if_neg (by rw [hs]; simp),
      if_pos hr0]
  · rw [tickerReset, if_neg (by push_neg; exact ⟨h1, h2⟩), if_pos hs]

/-- Witness for the C5 evidence theorem: on the started ticker
`busyTicker`, `Reset(20)` rebinds the period while `Reset(0)` is
rejected with `InvalidFrameRate`. -/
theorem claim_reset_zero_rejected_witness :
    (1/100 : Rat) ≤ 20 ∧ (20 : Rat) ≤ 200 ∧ busyTicker.started = true ∧
    tickerReset busyTicker 20 = (none, { busyTicker with d := durOf 20 }) ∧
    tickerReset busyTicker 0 = (some .InvalidFrameRate, busyTicker) := by
  have hc := claim_reset_zero_rejected
  refine ⟨by norm_num, by norm_num, rfl, ?_, hc.1 busyTicker⟩
  exact hc.2.2.1 busyTicker 20 (by norm_num) (by norm_num) rfl

/-- C6 (code-bug evidence): the tick loop stores zero into `tickcount` on
every pulse instead of incrementing it, and `TickCount()` reads
`totalframe`, so it is the same function as `TotalFrames()` rather than a
pulse counter; after two pulses on `busyTicker` (both skipped because the
previous frame is still processing) the pulse count is 2 but `tickcount`
is 0 and `TickCount` returns 0. -/
theorem claim_tickcount_not_incremented :
    (∀ tk : FrameTicker, (tickPulse tk).tickcount = 0) ∧
    (∀ tk : FrameTicker, tickerTickCount tk = tickerTotalFrames tk) ∧
    tickerTickCount (tickPulse (tickPulse busyTicker)) = 0 ∧
    (tickPulse (tickPulse busyTicker)).tickcount = 0 ∧
    (tickPulse (tickPulse busyTicker)).totalskipped = 2 := by
  refine ⟨fun tk => ?_, fun tk => rfl, ?_, ?_, ?_⟩
  · simp only [tickPulse]
    split
    · rfl
    · split <;> rfl
  · decide
  · decide
  · decide

theorem applyNeutral_fev (hook : FrameHook O V) (foa : FrameAgent O V)
    (op : FNeutralOp O V) : (applyNeutral hook foa op).fev = foa.fev := by
  cases op with
  | exitOp o id v =>
    show (frameExit hook foa o id v).fev = foa.fev
    rw [frameExit]
    rcases hook.hExit with _ | h
    · rfl
    · dsimp only
      by_cases hb : (h o id v).2 = true
      · rw [if_pos hb]
      · rw [if_neg hb]
  | pickOp o id v =>
    show (framePick hook foa o id v).fev = foa.fev
    rw [framePick]
    rcases hook.hPick with _ | h
    · rfl
    · dsimp only
      by_cases hb : (h o id v).2 = true
      · rw [if_pos hb]
      · rw [if_neg hb]

theorem foldNeutral_fev (hook : FrameHook O V) (ops : List (FNeutralOp O V)) :
    ∀ foa : FrameAgent O V, (ops.foldl (applyNeutral hook) foa).fev = foa.fev := by
  induction ops with
  | nil => intro foa; rfl
  | cons op rest ih =>
    intro foa
    rw [List.foldl_cons, ih, applyNeutral_fev]

/-- C7: the frame event a tick delivers is the classification cached by
the agent, read-and-reset to `Idle` atomically by `resetEv`: it is `Enter`
on the first tick after an `enter` lifecycle event or a `startOb` with the
state selected (when the hook does not skip), `Update` on the first tick
after an `update` (when the hook does not skip), and `Idle` on a tick
preceded only by a tick and classification-neutral events
(`exit` / `pick`, skipping or not). -/
theorem claim_frame_event_classification (hook : FrameHook O V) (foa : FrameAgent O V) :
    (∀ (owner : O) (id : StateID) (v : V),
      (∀ hh, hook.hEnter = some hh → (hh owner id v).2 = false) →
      (frameResetEv (frameEnter hook foa owner id v).1).1 = .fEvEnter) ∧
    (∀ (owner : O) (id : StateID) (v : V), foa.bound = false →
      (frameResetEv (frameStartOb hook foa owner id v true).2.1).1 = .fEvEnter) ∧
    (∀ (owner : O) (id : StateID) (v : V),
      (∀ hh, hook.hUpdate = some hh → (hh owner id v).2 = false) →
      (frameResetEv (frameUpdate hook foa owner id v)).1 = .fEvUpdate) ∧
    (∀ ops : List (FNeutralOp O V),
      (frameResetEv (ops.foldl (applyNeutral hook) (frameResetEv foa).2)).1 = .fEvIdle) ∧
    (frameResetEv foa = (foa.fev, { foa with fev := .fEvIdle })) := by
  refine ⟨fun owner id v hsk => ?_, fun owner id v hb => ?_,
    fun owner id v hsk => ?_, fun ops => ?_, rfl⟩
  · rw [frameEnter]
    rcases hh : hook.hEnter with _ | h
    · rfl
    · dsimp only
      rw [if_neg (by rw [hsk h hh]; simp)]
      rfl
  · rw [frameStartOb, if_neg (by rw [hb]; simp), if_pos rfl]
    rcases hook.hInit with _ | h <;> rfl
  · rw [frameUpdate]
    rcases hh : hook.hUpdate with _ | h
    · rfl
    · dsimp only
      rw [if_neg (by rw [hsk h hh]; simp)]
      rfl
  · show (ops.foldl (applyNeutral hook) (frameResetEv foa).2).fev = .fEvIdle
    rw [foldNeutral_fev]
    rfl

/-- Witness for C7: the default (absent) hook on concrete agents — an
enter then a tick delivers `Enter`; `startOb` with selection then a tick
delivers `Enter`; an update then a tick delivers `Update`; a tick followed
by an exit and a pick and another tick delivers `Idle`. -/
theorem claim_frame_event_classification_witness :
    (∀ hh, (noHook : FrameHook Nat Nat).hEnter = some hh → (hh 100 agentA.stateID 10).2 = false) ∧
    agentFresh.bound = false ∧
    (frameResetEv (frameEnter (noHook : FrameHook Nat Nat) agentA 100 agentA.stateID 10).1).1 =
      .fEvEnter ∧
    (frameResetEv (frameStartOb (noHook : FrameHook Nat Nat) agentFresh 100 agentA.stateID 10
      true).2.1).1 = .fEvEnter ∧
    (frameResetEv (frameUpdate (noHook : FrameHook Nat Nat) agentA 100 agentA.stateID 10)).1 =
      .fEvUpdate ∧
    (frameResetEv (([FNeutralOp.exitOp 1 STIDInvalid 2, FNeutralOp.pickOp 1 STIDInvalid 3]).foldl
      (applyNeutral (noHook : FrameHook Nat Nat)) (frameResetEv agentA).2)).1 = .fEvIdle := by
  have hcA := claim_frame_event_classification (noHook : FrameHook Nat Nat) agentA
  have hcF := claim_frame_event_classification (noHook : FrameHook Nat Nat) agentFresh
  have hns : ∀ hh, (noHook : FrameHook Nat Nat).hEnter = some hh →
      (hh 100 agentA.stateID 10).2 = false := by
    intro hh habs
    simp [noHook] at habs
  refine ⟨hns, rfl, ?_, ?_, ?_, ?_⟩
  · exact hcA.1 100 agentA.stateID 10 hns
  · exact hcF.2.1 100 agentA.stateID 10 rfl
  · refine hcA.2.2.1 100 agentA.stateID 10 ?_
    intro hh habs
    simp [noHook] at habs
  · exact hcA.2.2.2.1 [FNeutralOp.exitOp 1 STIDInvalid 2, FNeutralOp.pickOp 1 STIDInvalid 3]

end Genesm
